/-
Verification of the correlated VM metrics/logs generator
(`SyntheticDataGenerator.generate_correlated_vm_data` in `app.py`).

The Python function is shallowly embedded over exact rationals:
* `random.*` draws are supplied by an explicit `Oracle` of draw functions,
  indexed by tick (and log index within a tick); `ValidOracle` records the
  ranges the corresponding `random.uniform`/`random.randint` calls guarantee.
* Python's `round(x, 2)` (round-half-to-even on the exact value) is modelled
  by `round2` below; floats are idealized as rationals.
* `datetime` timestamps are modelled as integer seconds; the wall-clock
  anchor `datetime.now() - timedelta(hours=24)` is an abstract parameter.
-/
import Mathlib

/-! ## Round-half-to-even (Python `round`) on rationals -/

/-- Round-half-to-even to an integer, the rounding used by Python's `round`. -/
def rhe (x : ℚ) : ℤ :=
  if x - ⌊x⌋ < 1/2 then ⌊x⌋
  else if 1/2 < x - ⌊x⌋ then ⌊x⌋ + 1
  else if Even ⌊x⌋ then ⌊x⌋ else ⌊x⌋ + 1

/-- Python's `round(x, 2)`: round to two decimal places, half to even. -/
def round2 (x : ℚ) : ℚ := (rhe (100 * x) : ℚ) / 100

/-! ## Data model (from `generate_correlated_vm_data` in `app.py`) -/

/-- Per-host mutable state tracked in `host_states` (lazily initialized). -/
structure HostState where
  base_cpu : ℚ
  base_memory : ℚ
  incident_mode : Bool
  incident_start : Option ℤ
  incident_duration : ℕ
deriving DecidableEq

/-- One row of the VM metrics table (`vm_record` in the source). -/
structure VmRecord where
  timestamp : ℤ
  hostname : String
  cpu_usage_percent : ℚ
  memory_usage_percent : ℚ
  available_memory_bytes : ℕ
  available_memory_percentage : ℚ
  disk_read_operations : ℕ
  disk_write_operations : ℕ
  network_in_mbps : ℚ
  network_out_mbps : ℚ
  network_packets_in : ℕ
  network_packets_out : ℕ
  disk_usage_percent : ℚ
  load_average_1min : ℚ
  load_average_5min : ℚ
  active_connections : ℕ
  running_processes : ℕ
deriving DecidableEq

/-- One row of the application logs table (`log_record` in the source). -/
structure LogRecord where
  timestamp : ℤ
  hostname : String
  service : String
  process_id : ℕ
  log_level : String
  message : String
  source_ip : String
  destination_ip : String
  source_port : ℕ
  destination_port : ℕ
  error_code : Option ℕ
  bytes_transferred : ℕ
  response_time_ms : ℕ
  user_agent : Option String
  request_id : String
  session_id : Option String
deriving DecidableEq

/--
All pseudo-random draws of one run, supplied explicitly so that the embedding
is a pure function.  Per-tick draws are indexed by the tick number `i`; the
per-log-row draws are indexed by the tick `i` and the log index `j` within the
tick.  The lazily-drawn per-host baselines are indexed by hostname.  Opaque
`faker` values (IPs, uuids) and the message-catalog selection (whose entries
interpolate further draws, and which no claim constrains) are modelled as
abstract string draws.
-/
structure Oracle where
  hostIdx : ℕ → ℕ
  baseCpu : String → ℚ
  baseMemory : String → ℚ
  roll : ℕ → ℚ
  dur : ℕ → ℕ
  cpuHi : ℕ → ℚ
  cpuLo : ℕ → ℚ
  memHi : ℕ → ℚ
  memLo : ℕ → ℚ
  dReadHi : ℕ → ℕ
  dReadLo : ℕ → ℕ
  dWriteHi : ℕ → ℕ
  dWriteLo : ℕ → ℕ
  netInHi : ℕ → ℚ
  netInLo : ℕ → ℚ
  netOutHi : ℕ → ℚ
  netOutLo : ℕ → ℚ
  availHi : ℕ → ℕ
  availLo : ℕ → ℕ
  packetsIn : ℕ → ℕ
  packetsOut : ℕ → ℕ
  diskUsage : ℕ → ℚ
  activeConn : ℕ → ℕ
  runningProc : ℕ → ℕ
  logCount : ℕ → ℕ
  svcIdx : ℕ → ℕ → ℕ
  pid : ℕ → ℕ → ℕ
  errRoll : ℕ → ℕ → ℚ
  levelIdx : ℕ → ℕ → ℕ
  errMsg : ℕ → ℕ → String
  normMsg : ℕ → ℕ → String
  errCode : ℕ → ℕ → ℕ
  bytesErr : ℕ → ℕ → ℕ
  bytesNorm : ℕ → ℕ → ℕ
  ipDir : ℕ → ℕ → Bool
  ipPriv : ℕ → ℕ → String
  ipPub : ℕ → ℕ → String
  srcPort : ℕ → ℕ → ℕ
  dstPortIdx : ℕ → ℕ → ℕ
  tsOff : ℕ → ℕ → ℕ
  respTime : ℕ → ℕ → ℕ
  uaIdx : ℕ → ℕ → ℕ
  reqId : ℕ → ℕ → String
  sessFlag : ℕ → ℕ → Bool
  sessId : ℕ → ℕ → String

/--
Ranges guaranteed by the `random.uniform` / `random.randint` / `random.random`
calls the oracle fields stand for.  Only the draws some claim depends on are
constrained; the remaining draws (disk/network I/O, packets, ports, …) are

left free because no claim concerns their ranges.
-/
structure ValidOracle (o : Oracle) : Prop where
  baseCpu_lb : ∀ h, 10 ≤ o.baseCpu h
  baseCpu_ub : ∀ h, o.baseCpu h ≤ 30
  baseMemory_lb : ∀ h, 40 ≤ o.baseMemory h
  baseMemory_ub : ∀ h, o.baseMemory h ≤ 70
  dur_lb : ∀ i, 3 ≤ o.dur i
  dur_ub : ∀ i, o.dur i ≤ 9
  cpuHi_lb : ∀ i, 40 ≤ o.cpuHi i
  cpuHi_ub : ∀ i, o.cpuHi i ≤ 60
  cpuLo_lb : ∀ i, -5 ≤ o.cpuLo i
  cpuLo_ub : ∀ i, o.cpuLo i ≤ 15
  memHi_lb : ∀ i, 20 ≤ o.memHi i
  memHi_ub : ∀ i, o.memHi i ≤ 40
  memLo_lb : ∀ i, -10 ≤ o.memLo i
  memLo_ub : ∀ i, o.memLo i ≤ 15
  logCount_lb : ∀ i, 1 ≤ o.logCount i
  logCount_ub : ∀ i, o.logCount i ≤ 5
  tsOff_ub : ∀ i j, o.tsOff i j ≤ 299
  errCode_lb : ∀ i j, 400 ≤ o.errCode i j
  errCode_ub : ∀ i j, o.errCode i j ≤ 599
  bytesErr_ub : ∀ i j, o.bytesErr i j ≤ 1000
  bytesNorm_lb : ∀ i j, 1000 ≤ o.bytesNorm i j
  bytesNorm_ub : ∀ i j, o.bytesNorm i j ≤ 100000

/-- `random.choice(l)`: the draw `k` selects an element of `l` (via reduction
modulo the length); `d` is only returned when `l` is empty, which
`random.choice` answers with an exception. -/
def rchoice {α : Type} (l : List α) (d : α) (k : ℕ) : α :=
  l.getD (k % l.length) d

/-- The fixed host pool `vm_hosts`. -/
def vm_hosts : List String :=
  ["vm-web-01", "vm-web-02", "vm-api-01", "vm-api-02", "vm-db-01", "vm-db-02",
   "vm-cache-01", "vm-worker-01", "vm-worker-02", "vm-monitoring-01", "vm-monitoring-02"]

/-- The per-host service sets `services_by_host`. -/
def services_by_host : List (String × List String) :=
  [("vm-web-01", ["nginx", "php-fpm", "redis"]),
   ("vm-web-02", ["nginx", "php-fpm", "redis"]),
   ("vm-api-01", ["java", "tomcat", "mysql-client"]),
   ("vm-api-02", ["java", "tomcat", "mysql-client"]),
   ("vm-db-01", ["mysql", "mysqld_safe", "backup-agent"]),
   ("vm-db-02", ["mysql", "mysqld_safe", "backup-agent"]),
   ("vm-cache-01", ["redis", "redis-sentinel", "monitoring"]),
   ("vm-worker-01", ["python", "celery", "rabbitmq"]),
   ("vm-worker-02", ["python", "celery", "rabbitmq"]),
   ("vm-monitoring-01", ["prometheus", "grafana", "alertmanager"]),
   ("vm-monitoring-02", ["prometheus", "grafana", "alertmanager"])]

/-- Lazy initialization of a host's state on first reference. -/
def initHostState (o : Oracle) (hostname : String) : HostState where
  base_cpu := o.baseCpu hostname
  base_memory := o.baseMemory hostname
  incident_mode := false
  incident_start := none
  incident_duration := 0

/-- First incident `if` block: `Normal → Incident` with probability 0.10,
recording the start timestamp and drawing a 3–9 tick duration. -/
def tickStateStart (o : Oracle) (i : ℕ) (timestamp : ℤ) (st : HostState) :
    HostState :=
  if st.incident_mode = false ∧ o.roll i < 1/10 then
    { st with incident_mode := true, incident_start := some timestamp,
              incident_duration := o.dur i }
  else st

/-- Second incident `if` block: `Incident → Normal` once
`elapsed_intervals = (timestamp - incident_start).total_seconds() / 300`
reaches the planned duration.  The `getD` duplicates Python's reliance on
`incident_start` being set whenever `incident_mode` holds. -/
def tickStateEnd (timestamp : ℤ) (st1 : HostState) : HostState :=
  if st1.incident_mode then
    if (st1.incident_duration : ℚ) ≤
        ((timestamp - st1.incident_start.getD timestamp : ℤ) : ℚ) / 300 then
      { st1 with incident_mode := false }
    else st1
  else st1

/-- The incident state machine update for the selected host at one tick
(the two `if` blocks guarded by `correlation_type == 'performance_issues'`). -/
def tickState (correlation_type : String) (o : Oracle) (i : ℕ) (timestamp : ℤ)
    (st : HostState) : HostState :=
  if correlation_type = "performance_issues" then
    tickStateEnd timestamp (tickStateStart o i timestamp st)
  else st

/-- `cpu_percent` as assigned in the incident / normal branches. -/
def vmCpu (o : Oracle) (i : ℕ) (st : HostState) : ℚ :=
  if st.incident_mode then min 95 (st.base_cpu + o.cpuHi i)
  else st.base_cpu + o.cpuLo i

/-- `memory_percent` as assigned in the incident / normal branches. -/
def vmMem (o : Oracle) (i : ℕ) (st : HostState) : ℚ :=
  if st.incident_mode then min 95 (st.base_memory + o.memHi i)
  else st.base_memory + o.memLo i

/-- The `vm_record` dict built for the tick. -/
def mkVm (o : Oracle) (i : ℕ) (timestamp : ℤ) (hostname : String)
    (st : HostState) : VmRecord where
  timestamp := timestamp
  hostname := hostname
  cpu_usage_percent := round2 (max 0 (min 100 (vmCpu o i st)))
  memory_usage_percent := round2 (max 0 (min 100 (vmMem o i st)))
  available_memory_bytes := if st.incident_mode then o.availHi i else o.availLo i
  available_memory_percentage := round2 (100 - vmMem o i st)
  disk_read_operations := if st.incident_mode then o.dReadHi i else o.dReadLo i
  disk_write_operations := if st.incident_mode then o.dWriteHi i else o.dWriteLo i
  network_in_mbps := round2 (if st.incident_mode then o.netInHi i else o.netInLo i)
  network_out_mbps := round2 (if st.incident_mode then o.netOutHi i else o.netOutLo i)
  network_packets_in := o.packetsIn i
  network_packets_out := o.packetsOut i
  disk_usage_percent := round2 (o.diskUsage i)
  load_average_1min := round2 (vmCpu o i st / 25)
  load_average_5min := round2 (vmCpu o i st / 30)
  active_connections := o.activeConn i
  running_processes := o.runningProc i

/-- The user-agent pool used for nginx/java services. -/
def user_agents : List String :=
  ["curl/7.68.0", "PostmanRuntime/7.28.4", "python-requests/2.25.1",
   "Apache-HttpClient/4.5.13", "Go-http-client/1.1"]

/-- One `log_record` dict: log index `j` of tick `i`.  `error_likely` is the
flag set alongside the metrics branch. -/
def mkLog (o : Oracle) (i j : ℕ) (timestamp : ℤ) (hostname : String)
    (services : List String) (error_likely : Bool) : LogRecord :=
  let service := rchoice services "unknown-service" (o.svcIdx i j)
  let isError : Bool := error_likely && decide (o.errRoll i j < 2/5)
  { timestamp := timestamp + (o.tsOff i j : ℤ)
    hostname := hostname
    service := service
    process_id := o.pid i j
    log_level :=
      if isError then rchoice ["ERROR", "WARN", "CRIT"] "ERROR" (o.levelIdx i j)
      else rchoice ["INFO", "DEBUG"] "INFO" (o.levelIdx i j)
    message := if isError then o.errMsg i j else o.normMsg i j
    source_ip := if o.ipDir i j then o.ipPriv i j else o.ipPub i j
    destination_ip := if o.ipDir i j then o.ipPub i j else o.ipPriv i j
    source_port := o.srcPort i j
    destination_port := rchoice [80, 443, 3306, 5432, 6379, 8080, 9200] 80 (o.dstPortIdx i j)
    error_code := if isError then some (o.errCode i j) else none
    bytes_transferred := if isError then o.bytesErr i j else o.bytesNorm i j
    response_time_ms := o.respTime i j
    user_agent :=
      if service = "nginx" ∨ service = "java" then
        some (rchoice user_agents "curl/7.68.0" (o.uaIdx i j))
      else none
    request_id := o.reqId i j
    session_id := if o.sessFlag i j then some (o.sessId i j) else none }

/-- The `host_states` dictionary. -/
abbrev HostStates := String → Option HostState

/-- One iteration of the main `for i, timestamp in enumerate(timestamps)` loop:
select a host, lazily initialize and update its state, emit the metrics row
and the 1–5 log rows of the tick. -/
def stepTick (correlation_type : String) (o : Oracle) (anchor : ℤ) (i : ℕ)
    (host_states : HostStates) : HostStates × VmRecord × List LogRecord :=
  let timestamp : ℤ := anchor + 300 * (i : ℤ)
  let hostname := rchoice vm_hosts "vm-web-01" (o.hostIdx i)
  let st0 := (host_states hostname).getD (initHostState o hostname)
  let st := tickState correlation_type o i timestamp st0
  let vm := mkVm o i timestamp hostname st
  let services := (services_by_host.lookup hostname).getD ["unknown-service"]
  let logs := (List.range (o.logCount i)).map fun j =>
    mkLog o i j timestamp hostname services st.incident_mode
  (fun h => if h = hostname then some st else host_states h, vm, logs)

/-- Run the loop for `k` more ticks starting at tick `i`, appending rows to
the two tables. -/
def runAux (correlation_type : String) (o : Oracle) (anchor : ℤ) :
    ℕ → ℕ → HostStates → List VmRecord × List LogRecord
  | 0, _, _ => ([], [])
  | k + 1, i, host_states =>
    let r := stepTick correlation_type o anchor i host_states
    let rest := runAux correlation_type o anchor k (i + 1) r.1
    (r.2.1 :: rest.1, r.2.2 ++ rest.2)

/-- `SyntheticDataGenerator.generate_correlated_vm_data`: the timestamps are
`anchor + 300*i` for `i < num_records` (the code's `base_time` advanced by
5 minutes per step, with `base_time = now − 24h` abstracted as `anchor`), and
the `host_states` dict starts empty. -/
def generate_correlated_vm_data (num_records : ℕ) (correlation_type : String)
    (anchor : ℤ) (o : Oracle) : List VmRecord × List LogRecord :=
  runAux correlation_type o anchor num_records 0 fun _ => none

/-- The contents of the `host_states` dict of that same run after the first
`k` ticks have been processed. -/
def statesAfter (correlation_type : String) (o : Oracle) (anchor : ℤ) :
    ℕ → HostStates
  | 0 => fun _ => none
  | k + 1 =>
    (stepTick correlation_type o anchor k (statesAfter correlation_type o anchor k)).1

/-- The spec's incident window predicate: the current timestamp `t` lies in
`[incident_start, incident_start + incident_duration ticks)`. -/
def inWindowB (st : HostState) (t : ℤ) : Bool :=
  match st.incident_start with
  | none => false
  | some s => decide (s ≤ t) && decide (t < s + 300 * (st.incident_duration : ℤ))

/-- The per-tick view of the same run: the metrics row of each tick paired
with the log rows emitted for that tick (before the latter are appended into
the flat `app_logs_data` table). -/
def runTicks (correlation_type : String) (o : Oracle) (anchor : ℤ) :
    ℕ → ℕ → HostStates → List (VmRecord × List LogRecord)
  | 0, _, _ => []
  | k + 1, i, host_states =>
    let r := stepTick correlation_type o anchor i host_states
    (r.2.1, r.2.2) :: runTicks correlation_type o anchor k (i + 1) r.1

/-- Per-tick view of a whole `generate_correlated_vm_data` run. -/
def generateTicks (num_records : ℕ) (correlation_type : String) (anchor : ℤ)
    (o : Oracle) : List (VmRecord × List LogRecord) :=
  runTicks correlation_type o anchor num_records 0 fun _ => none

/-- Bookkeeping invariant of the `host_states` dict at time `t`: a host in
incident mode has a start timestamp drawn no later than `t`, and a host out
of incident mode either never had an incident or its last incident window
ended by `t`. -/
def IncInv (s : HostStates) (t : ℤ) : Prop :=
  ∀ h st, s h = some st →
    (st.incident_mode = true → ∃ x, st.incident_start = some x ∧ x ≤ t) ∧
    (st.incident_mode = false → st.incident_start = none ∨
      ∃ x, st.incident_start = some x ∧ x + 300 * (st.incident_duration : ℤ) ≤ t)

/-- The baselines drawn at lazy initialization stay in the `random.uniform`
ranges `[10,30]` (cpu) and `[40,70]` (memory). -/
def HostBounds (st : HostState) : Prop :=
  10 ≤ st.base_cpu ∧ st.base_cpu ≤ 30 ∧ 40 ≤ st.base_memory ∧ st.base_memory ≤ 70

/-- Every state stored in the `host_states` dict has in-range baselines. -/
def StatesBounds (s : HostStates) : Prop :=
  ∀ h st, s h = some st → HostBounds st

instance : Inhabited VmRecord :=
  ⟨⟨0, "", 0, 0, 0, 0, 0, 0, 0, 0, 0, 0, 0, 0, 0, 0, 0⟩⟩

instance : Inhabited LogRecord :=
  ⟨⟨0, "", "", 0, "", "", "", "", 0, 0, none, 0, 0, none, "", none⟩⟩

/-- A benign concrete oracle: every draw is a constant well inside its range;
host 0 (`vm-web-01`) is always selected, incidents never trigger
(`roll = 1/2 ≥ 0.1`), one log row per tick. -/
def oW : Oracle where
  hostIdx := fun _ => 0
  baseCpu := fun _ => 20
  baseMemory := fun _ => 50
  roll := fun _ => 1/2
  dur := fun _ => 3
  cpuHi := fun _ => 50
  cpuLo := fun _ => 0
  memHi := fun _ => 30
  memLo := fun _ => 0
  dReadHi := fun _ => 1000
  dReadLo := fun _ => 100
  dWriteHi := fun _ => 500
  dWriteLo := fun _ => 50
  netInHi := fun _ => 100
  netInLo := fun _ => 10
  netOutHi := fun _ => 100
  netOutLo := fun _ => 10
  availHi := fun _ => 1000000000
  availLo := fun _ => 5000000000
  packetsIn := fun _ => 1000
  packetsOut := fun _ => 900
  diskUsage := fun _ => 50
  activeConn := fun _ => 100
  runningProc := fun _ => 150
  logCount := fun _ => 1
  svcIdx := fun _ _ => 0
  pid := fun _ _ => 1234
  errRoll := fun _ _ => 1/2
  levelIdx := fun _ _ => 0
  errMsg := fun _ _ => "System error occurred"
  normMsg := fun _ _ => "Service running normally"
  errCode := fun _ _ => 500
  bytesErr := fun _ _ => 500
  bytesNorm := fun _ _ => 5000
  ipDir := fun _ _ => true
  ipPriv := fun _ _ => "10.0.0.1"
  ipPub := fun _ _ => "93.184.216.34"
  srcPort := fun _ _ => 2000
  dstPortIdx := fun _ _ => 0
  tsOff := fun _ _ => 0
  respTime := fun _ _ => 100
  uaIdx := fun _ _ => 0
  reqId := fun _ _ => "abc123def456"
  sessFlag := fun _ _ => false
  sessId := fun _ _ => "abcd1234"

/-- Oracle driving the incident-persistence counterexample: tick 0 selects
`vm-web-01` and starts an incident (roll 0 < 0.1) of duration 3; every later
tick selects `vm-api-01` and rolls no incident, so `vm-web-01` is never
updated again. -/
def oC1 : Oracle :=
  { oW with
    hostIdx := fun i => if i = 0 then 0 else 2
    roll := fun i => if i = 0 then 0 else 1/2 }

/-- Oracle driving the load-average counterexample: the sampled cpu percent
is `10.552 - 5 = 5.552`, whose 5-minute load average rounds differently from
the value re-derived from the rounded cpu field. -/
def oC2 : Oracle :=
  { oW with
    baseCpu := fun _ => 1319/125
    cpuLo := fun _ => -5 }

/-- `vm-web-01`'s state immediately after lazy initialization under `oW`. -/
def stW : HostState := ⟨20, 50, false, none, 0⟩

/-- `vm-web-01`'s stale state at the end of the `oC1` counterexample run:
incident started at timestamp 0 with planned duration 3 ticks, never
re-examined. -/
def stC1 : HostState := ⟨20, 50, true, some 0, 3⟩

/-- The single metrics row of the 1-tick witness run under `oW`. -/
def vmW : VmRecord := (stepTick "normal_operations" oW 0 0 fun _ => none).2.1

/-- The single log row of the 1-tick witness run under `oW`. -/
def logW : LogRecord := ((stepTick "normal_operations" oW 0 0 fun _ => none).2.2).headI

/-- The single per-tick pair of the 1-tick witness run under `oW`. -/
def tickW : VmRecord × List LogRecord := (generateTicks 1 "normal_operations" 0 oW).headI

/-- The single metrics row of the 1-tick counterexample run under `oC2`. -/
def cexRowC2 : VmRecord := (stepTick "normal_operations" oC2 0 0 fun _ => none).2.1

/-! ## Rounding lemmas -/

theorem rhe_intCast (n : ℤ) : rhe (n : ℚ) = n := by
  unfold rhe
  rw [Int.floor_intCast]
  simp

theorem rhe_eq_of (n : ℤ) (x : ℚ) (h1 : (n : ℚ) - 1/2 < x) (h2 : x < (n : ℚ) + 1/2) :
    rhe x = n := by
  rcases le_or_lt (n : ℚ) x with h | h
  · have hf : ⌊x⌋ = n := by
      rw [Int.floor_eq_iff]
      constructor
      · exact_mod_cast h
      · linarith
    unfold rhe
    rw [hf]
    have hlt : x - (n : ℚ) < 1/2 := by linarith
    rw [if_pos hlt]
  · have hf : ⌊x⌋ = n - 1 := by
      rw [Int.floor_eq_iff]
      constructor
      · push_cast
        linarith
      · push_cast
        linarith
    unfold rhe
    rw [hf]
    have hnot : ¬ (x - ((n - 1 : ℤ) : ℚ) < 1/2) := by
      push_cast
      push_neg
      linarith
    have hgt : 1/2 < x - ((n - 1 : ℤ) : ℚ) := by
      push_cast
      linarith
    rw [if_neg hnot, if_pos hgt]
    omega

theorem rhe_half (n : ℤ) : rhe ((n : ℚ) + 1/2) = if Even n then n else n + 1 := by
  have hf : ⌊(n : ℚ) + 1/2⌋ = n := by
    rw [Int.floor_eq_iff]
    constructor
    · linarith
    · linarith
  unfold rhe
  rw [hf]
  have h1 : ¬ ((n : ℚ) + 1/2 - (n : ℚ) < 1/2) := by
    push_neg
    linarith
  have h2 : ¬ ((1 : ℚ)/2 < (n : ℚ) + 1/2 - (n : ℚ)) := by
    push_neg
    linarith
  rw [if_neg h1, if_neg h2]

theorem rhe_half_even (n : ℤ) (hn : Even n) : rhe ((n : ℚ) + 1/2) = n := by
  rw [rhe_half, if_pos hn]

theorem rhe_half_even' (n : ℤ) (hn : Even n) : rhe ((n : ℚ) - 1/2) = n := by
  have hx : (n : ℚ) - 1/2 = ((n - 1 : ℤ) : ℚ) + 1/2 := by
    push_cast
    ring
  have hodd : ¬ Even (n - 1) := by
    rw [Int.even_iff] at hn ⊢
    omega
  rw [hx, rhe_half, if_neg hodd]
  omega

theorem sub_rhe_le (x : ℚ) : x - rhe x ≤ 1/2 := by
  have hfl : (⌊x⌋ : ℚ) ≤ x := Int.floor_le x
  have hfu : x < ⌊x⌋ + 1 := Int.lt_floor_add_one x
  unfold rhe
  split_ifs with h1 h2 h3
  · linarith
  · push_cast
    linarith
  · linarith
  · push_cast
    linarith

theorem rhe_sub_le (x : ℚ) : (rhe x : ℚ) - x ≤ 1/2 := by
  have hfl : (⌊x⌋ : ℚ) ≤ x := Int.floor_le x
  have hfu : x < ⌊x⌋ + 1 := Int.lt_floor_add_one x
  unfold rhe
  split_ifs with h1 h2 h3
  · linarith
  · push_cast
    linarith
  · linarith
  · push_cast
    push_neg at h1 h2
    linarith

theorem rhe_even_of_sub (x : ℚ) (h : x - rhe x = 1/2) : Even (rhe x) := by
  have hfl : (⌊x⌋ : ℚ) ≤ x := Int.floor_le x
  have hfu : x < ⌊x⌋ + 1 := Int.lt_floor_add_one x
  unfold rhe at h ⊢
  split_ifs at h ⊢ with h1 h2 h3
  · exfalso
    linarith
  · exfalso
    push_cast at h
    linarith
  · exact h3
  · exfalso
    push_cast at h
    push_neg at h1 h2
    linarith

theorem rhe_even_of_sub' (x : ℚ) (h : (rhe x : ℚ) - x = 1/2) : Even (rhe x) := by
  have hfl : (⌊x⌋ : ℚ) ≤ x := Int.floor_le x
  have hfu : x < ⌊x⌋ + 1 := Int.lt_floor_add_one x
  unfold rhe at h ⊢
  split_ifs at h ⊢ with h1 h2 h3
  · exfalso
    linarith
  · exfalso
    push_cast at h
    linarith
  · exfalso
    push_neg at h1 h2
    linarith
  · push_cast at h
    push_neg at h1 h2
    have : x - ⌊x⌋ = 1/2 := by linarith
    have he : ¬ Even ⌊x⌋ := h3
    rw [Int.even_iff] at he ⊢
    omega

theorem rhe_div25_aux (n : ℤ) (y : ℚ) (hyl : (n : ℚ) - 1/2 ≤ y) (hyu : y ≤ (n : ℚ) + 1/2)
    (hev1 : y - (n : ℚ) = 1/2 → Even n) (hev2 : (n : ℚ) - y = 1/2 → Even n) :
    rhe ((n : ℚ) / 25) = rhe (y / 25) := by
  obtain ⟨a, b, hab, hb0, hb25⟩ : ∃ a b, n = 25 * a + b ∧ 0 ≤ b ∧ b < 25 :=
    ⟨n / 25, n % 25, by omega, by omega, by omega⟩
  subst hab
  have hnq : ((25 * a + b : ℤ) : ℚ) = 25 * (a : ℚ) + (b : ℚ) := by push_cast; ring
  have hb0q : (0 : ℚ) ≤ (b : ℚ) := by exact_mod_cast hb0
  have hb25q : (b : ℚ) ≤ 24 := by exact_mod_cast (by omega : b ≤ 24)
  rcases le_or_lt b 12 with hb12 | hb13
  · have hb12q : (b : ℚ) ≤ 12 := by exact_mod_cast hb12
    have h1 : rhe (((25 * a + b : ℤ) : ℚ) / 25) = a := by
      apply rhe_eq_of
      · rw [lt_div_iff₀ (by norm_num : (0 : ℚ) < 25)]
        rw [hnq]
        linarith
      · rw [div_lt_iff₀ (by norm_num : (0 : ℚ) < 25)]
        rw [hnq]
        linarith
    rcases eq_or_lt_of_le hyu with heq | hyu'
    · have hevn : Even (25 * a + b) := hev1 (by rw [heq]; ring)
      rcases lt_or_eq_of_le hb12 with hb11 | hb12e
      · have hb11q : (b : ℚ) ≤ 11 := by exact_mod_cast (by omega : b ≤ 11)
        have h2 : rhe (y / 25) = a := by
          apply rhe_eq_of
          · rw [lt_div_iff₀ (by norm_num : (0 : ℚ) < 25)]
            rw [heq, hnq]
            linarith
          · rw [div_lt_iff₀ (by norm_num : (0 : ℚ) < 25)]
            rw [heq, hnq]
            linarith
        rw [h1, h2]
      · have ha_even : Even a := by
          rw [Int.even_iff] at hevn ⊢
          omega
        have hy25 : y / 25 = (a : ℚ) + 1/2 := by
          rw [heq, hnq, hb12e]
          push_cast
          ring
        rw [h1, hy25, rhe_half_even a ha_even]
    · have h2 : rhe (y / 25) = a := by
        apply rhe_eq_of
        · rw [lt_div_iff₀ (by norm_num : (0 : ℚ) < 25)]
          rw [hnq] at hyl
          linarith
        · rw [div_lt_iff₀ (by norm_num : (0 : ℚ) < 25)]
          rw [hnq] at hyu'
          linarith
      rw [h1, h2]
  · have hb13q : (13 : ℚ) ≤ (b : ℚ) := by exact_mod_cast (by omega : (13 : ℤ) ≤ b)
    have h1 : rhe (((25 * a + b : ℤ) : ℚ) / 25) = a + 1 := by
      apply rhe_eq_of
      · rw [lt_div_iff₀ (by norm_num : (0 : ℚ) < 25)]
        rw [hnq]
        push_cast
        linarith
      · rw [div_lt_iff₀ (by norm_num : (0 : ℚ) < 25)]
        rw [hnq]
        push_cast
        linarith
    rcases eq_or_lt_of_le hyl with heq | hyl'
    · have hevn : Even (25 * a + b) := hev2 (by rw [← heq]; ring)
      rcases eq_or_lt_of_le hb13q with hb13e | hb14
      · have hb13z : b = 13 := by exact_mod_cast hb13e.symm
        have ha1_even : Even (a + 1) := by
          rw [Int.even_iff] at hevn ⊢
          omega
        have hy25 : y / 25 = ((a + 1 : ℤ) : ℚ) - 1/2 := by
          rw [← heq, hnq, hb13z]
          push_cast
          ring
        rw [h1, hy25, rhe_half_even' (a + 1) ha1_even]
      · have h2 : rhe (y / 25) = a + 1 := by
          apply rhe_eq_of
          · rw [lt_div_iff₀ (by norm_num : (0 : ℚ) < 25)]
            rw [← heq, hnq]
            push_cast
            linarith
          · rw [div_lt_iff₀ (by norm_num : (0 : ℚ) < 25)]
            rw [← heq, hnq]
            push_cast
            linarith
        rw [h1, h2]
    · have h2 : rhe (y / 25) = a + 1 := by
        apply rhe_eq_of
        · rw [lt_div_iff₀ (by norm_num : (0 : ℚ) < 25)]
          rw [hnq] at hyl'
          push_cast
          linarith
        · rw [div_lt_iff₀ (by norm_num : (0 : ℚ) < 25)]
          rw [hnq] at hyu
          push_cast
          linarith
      rw [h1, h2]

/-- Rounding to two decimals commutes with the subsequent division by 25
used for `load_average_1min`. -/
theorem rhe_div25 (y : ℚ) : rhe ((rhe y : ℚ) / 25) = rhe (y / 25) := by
  apply rhe_div25_aux
  · have := rhe_sub_le y
    linarith
  · have := sub_rhe_le y
    linarith
  · intro h
    exact rhe_even_of_sub y (by linarith)
  · intro h
    exact rhe_even_of_sub' y (by linarith)

theorem rhe_sub_even (N : ℤ) (hN : Even N) (x : ℚ) :
    rhe ((N : ℚ) - x) = N - rhe x := by
  obtain ⟨m, hm⟩ : ∃ m : ℤ, ⌊x⌋ = m := ⟨⌊x⌋, rfl⟩
  have hfl : (m : ℚ) ≤ x := hm ▸ Int.floor_le x
  have hfu : x < (m : ℚ) + 1 := by
    have := Int.lt_floor_add_one x
    rw [hm] at this
    exact_mod_cast this
  rcases eq_or_lt_of_le hfl with heq | hlt
  · rw [← heq, show (N : ℚ) - ((m : ℤ) : ℚ) = ((N - m : ℤ) : ℚ) by push_cast; ring,
      rhe_intCast, rhe_intCast]
  · rcases lt_trichotomy (x - (m : ℚ)) (1/2) with hf | hf | hf
    · have h1 : rhe x = m := rhe_eq_of _ _ (by linarith) (by linarith)
      have h2 : rhe ((N : ℚ) - x) = N - m := by
        apply rhe_eq_of
        · push_cast
          linarith
        · push_cast
          linarith
      rw [h1, h2]
    · have hx : x = (m : ℚ) + 1/2 := by linarith
      rcases Int.even_or_odd m with he | ho
      · have h1 : rhe x = m := by rw [hx, rhe_half_even _ he]
        have h2 : rhe ((N : ℚ) - x) = N - m := by
          have hNn : Even (N - m) := by
            rw [Int.even_iff] at hN he ⊢
            omega
          have hrw : (N : ℚ) - x = ((N - m : ℤ) : ℚ) - 1/2 := by
            rw [hx]
            push_cast
            ring
          rw [hrw, rhe_half_even' _ hNn]
        rw [h1, h2]
      · have h1 : rhe x = m + 1 := by
          rw [hx, rhe_half]
          rw [if_neg (by simpa [Int.even_iff, Int.odd_iff] using ho)]
        have h2 : rhe ((N : ℚ) - x) = N - m - 1 := by
          have hNn : Even (N - m - 1) := by
            rw [Int.even_iff] at hN ⊢
            rw [Int.odd_iff] at ho
            omega
          have hrw : (N : ℚ) - x = ((N - m - 1 : ℤ) : ℚ) + 1/2 := by
            rw [hx]
            push_cast
            ring
          rw [hrw, rhe_half_even _ hNn]
        rw [h1, h2]
        omega
    · have h1 : rhe x = m + 1 := by
        apply rhe_eq_of
        · push_cast
          linarith
        · push_cast
          linarith
      have h2 : rhe ((N : ℚ) - x) = N - m - 1 := by
        apply rhe_eq_of
        · push_cast
          linarith
        · push_cast
          linarith
      rw [h1, h2]
      omega

theorem rhe_dist (u v : ℚ) (h1 : u - v < 1) (h2 : v - u < 1) :
    rhe u - rhe v ≤ 1 ∧ rhe v - rhe u ≤ 1 := by
  have a1 := rhe_sub_le u
  have a2 := sub_rhe_le u
  have b1 := rhe_sub_le v
  have b2 := sub_rhe_le v
  have hq1 : ((rhe u : ℤ) : ℚ) - ((rhe v : ℤ) : ℚ) < 2 := by linarith
  have hq2 : ((rhe v : ℤ) : ℚ) - ((rhe u : ℤ) : ℚ) < 2 := by linarith
  have hz1 : rhe u - rhe v < 2 := by exact_mod_cast hq1
  have hz2 : rhe v - rhe u < 2 := by exact_mod_cast hq2
  omega

/-- `round(_, 2)` commutes with division by 25. -/
theorem round2_div25 (x : ℚ) : round2 (round2 x / 25) = round2 (x / 25) := by
  unfold round2
  rw [show (100 : ℚ) * ((rhe (100 * x) : ℚ) / 100 / 25) = (rhe (100 * x) : ℚ) / 25 by ring,
    show (100 : ℚ) * (x / 25) = (100 * x) / 25 by ring, rhe_div25 (100 * x)]

/-- `round(100 - x, 2) = 100 - round(x, 2)`. -/
theorem round2_sub100 (x : ℚ) : round2 (100 - x) = 100 - round2 x := by
  unfold round2
  rw [show (100 : ℚ) * (100 - x) = ((10000 : ℤ) : ℚ) - 100 * x by push_cast; ring,
    rhe_sub_even 10000 ⟨5000, by norm_num⟩ (100 * x)]
  push_cast
  ring

/-- The two load averages after rounding differ from re-deriving them from the
rounded CPU field by at most one hundredth. -/
theorem round2_div30_dist (x : ℚ) :
    |round2 (x / 30) - round2 (round2 x / 30)| ≤ 1/100 := by
  unfold round2
  rw [show (100 : ℚ) * ((rhe (100 * x) : ℚ) / 100 / 30) = (rhe (100 * x) : ℚ) / 30 by ring,
    show (100 : ℚ) * (x / 30) = (100 * x) / 30 by ring]
  have hb1 := rhe_sub_le (100 * x)
  have hb2 := sub_rhe_le (100 * x)
  have hd := rhe_dist ((100 * x) / 30) ((rhe (100 * x) : ℚ) / 30)
    (by rw [div_sub_div_same]; rw [div_lt_iff₀ (by norm_num : (0 : ℚ) < 30)]; linarith)
    (by rw [div_sub_div_same]; rw [div_lt_iff₀ (by norm_num : (0 : ℚ) < 30)]; linarith)
  rw [abs_le]
  constructor
  · have : ((rhe ((rhe (100 * x) : ℚ) / 30) : ℤ) : ℚ) - (rhe ((100 * x) / 30) : ℚ) ≤ 1 := by
      exact_mod_cast hd.2
    rw [div_sub_div_same]
    rw [le_div_iff₀ (by norm_num : (0 : ℚ) < 100)]
    linarith
  · have : ((rhe ((100 * x) / 30) : ℤ) : ℚ) - (rhe ((rhe (100 * x) : ℚ) / 30) : ℚ) ≤ 1 := by
      exact_mod_cast hd.1
    rw [div_sub_div_same]
    rw [div_le_iff₀ (by norm_num : (0 : ℚ) < 100)]
    linarith

/-- The `max(0, min(100, _))` clamp is the identity on in-range values. -/
theorem clamp_eq (x : ℚ) (h0 : 0 ≤ x) (h1 : x ≤ 100) : max 0 (min 100 x) = x := by
  rw [min_eq_right h1, max_eq_right h0]


/-! ## Scenario dispatch: only `performance_issues` is ever tested -/

theorem tickState_nonperf (c : String) (hc : c ≠ "performance_issues") (o : Oracle)
    (i : ℕ) (t : ℤ) (st : HostState) : tickState c o i t st = st := by
  unfold tickState
  rw [if_neg hc]

theorem stepTick_nonperf (c : String) (hc : c ≠ "performance_issues") (o : Oracle)
    (anchor : ℤ) (i : ℕ) (s : HostStates) :
    stepTick c o anchor i s = stepTick "normal_operations" o anchor i s := by
  simp only [stepTick, tickState_nonperf c hc,
    tickState_nonperf "normal_operations" (by decide)]

theorem runAux_nonperf (c : String) (hc : c ≠ "performance_issues") (o : Oracle)
    (anchor : ℤ) : ∀ k i s,
    runAux c o anchor k i s = runAux "normal_operations" o anchor k i s := by
  intro k
  induction k with
  | zero => intro i s; rfl
  | succ k ih =>
    intro i s
    simp only [runAux, stepTick_nonperf c hc]
    rw [ih]

/-- C8: for every interval count and every sequence of draws, the
`mixed_scenarios` run returns exactly the same pair of tables as the
`normal_operations` run — the scenario string is only ever compared against
`performance_issues`. -/
theorem generate_correlated_vm_data_mixed_eq_normal (num_records : ℕ) (anchor : ℤ)
    (o : Oracle) :
    generate_correlated_vm_data num_records "mixed_scenarios" anchor o =
      generate_correlated_vm_data num_records "normal_operations" anchor o := by
  unfold generate_correlated_vm_data
  exact runAux_nonperf _ (by decide) o anchor num_records 0 _

/-! ## Table shapes and timestamps -/

theorem runAux_metrics_length (c : String) (o : Oracle) (anchor : ℤ) :
    ∀ k i s, (runAux c o anchor k i s).1.length = k := by
  intro k
  induction k with
  | zero => intro i s; rfl
  | succ k ih =>
    intro i s
    simp only [runAux, List.length_cons, ih]

theorem stepTick_logs_length (c : String) (o : Oracle) (anchor : ℤ) (i : ℕ)
    (s : HostStates) : (stepTick c o anchor i s).2.2.length = o.logCount i := by
  simp [stepTick]

theorem runAux_logs_length (c : String) (o : Oracle) (anchor : ℤ) :
    ∀ k i s, (runAux c o anchor k i s).2.length =
      ((List.range k).map fun j => o.logCount (i + j)).sum := by
  intro k
  induction k with
  | zero => intro i s; rfl
  | succ k ih =>
    intro i s
    simp only [runAux, List.length_append, ih, stepTick_logs_length]
    rw [List.range_succ_eq_map]
    simp only [List.map_cons, List.map_map, List.sum_cons, Nat.add_zero]
    have hsh : ((List.range k).map fun j => o.logCount (i + 1 + j)) =
        (List.range k).map ((fun j => o.logCount (i + j)) ∘ Nat.succ) := by
      apply List.map_congr_left
      intro j _
      simp only [Function.comp]
      congr 1
      omega
    rw [hsh]

theorem runAux_timestamps (c : String) (o : Oracle) (anchor : ℤ) :
    ∀ k i s, ((runAux c o anchor k i s).1.map fun r => r.timestamp) =
      ((List.range k).map fun j => anchor + 300 * ((i + j : ℕ) : ℤ)) := by
  intro k
  induction k with
  | zero => intro i s; rfl
  | succ k ih =>
    intro i s
    simp only [runAux, List.map_cons, ih]
    have hvm : (stepTick c o anchor i s).2.1.timestamp = anchor + 300 * (i : ℤ) := by
      simp [stepTick, mkVm]
    rw [hvm, List.range_succ_eq_map]
    simp only [List.map_cons, List.map_map, Nat.add_zero]
    have hsh : ((List.range k).map fun j => anchor + 300 * ((i + 1 + j : ℕ) : ℤ)) =
        (List.range k).map ((fun j => anchor + 300 * ((i + j : ℕ) : ℤ)) ∘ Nat.succ) := by
      apply List.map_congr_left
      intro j _
      simp only [Function.comp]
      congr 2
      omega
    rw [hsh]

/-- C4: the metrics table has exactly `num_records` rows and its timestamps
are `anchor + 300*i` seconds — the anchor advanced by exactly 5 minutes per
row, hence strictly increasing. -/
theorem generate_correlated_vm_data_timestamps (num_records : ℕ)
    (correlation_type : String) (anchor : ℤ) (o : Oracle) (_hn : 1 ≤ num_records) :
    (generate_correlated_vm_data num_records correlation_type anchor o).1.length
        = num_records ∧
    ((generate_correlated_vm_data num_records correlation_type anchor o).1.map
        fun r => r.timestamp) =
      ((List.range num_records).map fun i : ℕ => anchor + 300 * (i : ℤ)) ∧
    (((generate_correlated_vm_data num_records correlation_type anchor o).1.map
        fun r => r.timestamp).Pairwise (· < ·)) := by
  have hts : ((generate_correlated_vm_data num_records correlation_type anchor o).1.map
      fun r => r.timestamp) =
      ((List.range num_records).map fun i : ℕ => anchor + 300 * (i : ℤ)) := by
    unfold generate_correlated_vm_data
    rw [runAux_timestamps]
    simp only [Nat.zero_add]
  refine ⟨runAux_metrics_length correlation_type o anchor num_records 0 _, hts, ?_⟩
  rw [hts, List.pairwise_map]
  apply (List.pairwise_lt_range num_records).imp
  intro a b hab
  have : (a : ℤ) < (b : ℤ) := by exact_mod_cast hab
  linarith

theorem sum_bounds_of_mem (l : List ℕ) (h : ∀ x ∈ l, 1 ≤ x ∧ x ≤ 5) :
    l.length ≤ l.sum ∧ l.sum ≤ 5 * l.length := by
  induction l with
  | nil => simp
  | cons a t ih =>
    have ha := h a (by simp)
    have ht := ih fun x hx => h x (by simp [hx])
    simp only [List.length_cons, List.sum_cons]
    omega

/-- C7: the two tables have `num_records` rows and `sum` of the per-tick log
counts rows respectively; with each tick contributing 1–5 log rows the log
table length lies in `[num_records, 5*num_records]`. -/
theorem generate_correlated_vm_data_lengths (num_records : ℕ)
    (correlation_type : String) (anchor : ℤ) (o : Oracle) (hv : ValidOracle o)
    (_hn : 1 ≤ num_records) :
    (generate_correlated_vm_data num_records correlation_type anchor o).1.length
        = num_records ∧
    (generate_correlated_vm_data num_records correlation_type anchor o).2.length
        = ((List.range num_records).map fun i => o.logCount i).sum ∧
    num_records ≤
      (generate_correlated_vm_data num_records correlation_type anchor o).2.length ∧
    (generate_correlated_vm_data num_records correlation_type anchor o).2.length
        ≤ 5 * num_records := by
  have h2 : (generate_correlated_vm_data num_records correlation_type anchor o).2.length
      = ((List.range num_records).map fun i => o.logCount i).sum := by
    unfold generate_correlated_vm_data
    rw [runAux_logs_length]
    simp only [Nat.zero_add]
  have hb := sum_bounds_of_mem ((List.range num_records).map fun i => o.logCount i)
    (by
      intro x hx
      obtain ⟨i, _, rfl⟩ := List.mem_map.mp hx
      exact ⟨hv.logCount_lb i, hv.logCount_ub i⟩)
  rw [List.length_map, List.length_range] at hb
  exact ⟨runAux_metrics_length correlation_type o anchor num_records 0 _, h2,
    h2 ▸ hb.1, h2 ▸ hb.2⟩

/-- C3 (amended): unknown scenario strings are not rejected — there is no
scenario validation at all.  Any scenario outside the documented set behaves
exactly like `normal_operations` and produces a full-size output. -/
theorem generate_correlated_vm_data_invalid_scenario (c : String)
    (hc : c ∉ ["performance_issues", "normal_operations", "mixed_scenarios"])
    (num_records : ℕ) (anchor : ℤ) (o : Oracle) :
    generate_correlated_vm_data num_records c anchor o =
      generate_correlated_vm_data num_records "normal_operations" anchor o ∧
    (generate_correlated_vm_data num_records c anchor o).1.length = num_records := by
  have hc' : c ≠ "performance_issues" := by
    intro h
    exact hc (by rw [h]; simp)
  constructor
  · unfold generate_correlated_vm_data
    exact runAux_nonperf c hc' o anchor num_records 0 _
  · exact runAux_metrics_length c o anchor num_records 0 _

/-! ## Per-row facts of the metrics table -/

theorem tickState_base_cpu (c : String) (o : Oracle) (i : ℕ) (t : ℤ) (st : HostState) :
    (tickState c o i t st).base_cpu = st.base_cpu := by
  simp only [tickState, tickStateStart, tickStateEnd]
  split_ifs <;> rfl

theorem tickState_base_memory (c : String) (o : Oracle) (i : ℕ) (t : ℤ)
    (st : HostState) : (tickState c o i t st).base_memory = st.base_memory := by
  simp only [tickState, tickStateStart, tickStateEnd]
  split_ifs <;> rfl

theorem hostBounds_init (o : Oracle) (hv : ValidOracle o) (h : String) :
    HostBounds (initHostState o h) :=
  ⟨hv.baseCpu_lb h, hv.baseCpu_ub h, hv.baseMemory_lb h, hv.baseMemory_ub h⟩

theorem hostBounds_getD (o : Oracle) (hv : ValidOracle o) (s : HostStates)
    (hs : StatesBounds s) (h : String) :
    HostBounds ((s h).getD (initHostState o h)) := by
  cases hsh : s h with
  | none => simpa [Option.getD] using hostBounds_init o hv h
  | some st => simpa [Option.getD] using hs h st hsh

theorem hostBounds_tickState (c : String) (o : Oracle) (i : ℕ) (t : ℤ)
    (st : HostState) (hb : HostBounds st) : HostBounds (tickState c o i t st) := by
  unfold HostBounds at hb ⊢
  rw [tickState_base_cpu, tickState_base_memory]
  exact hb

theorem statesBounds_empty : StatesBounds fun _ => none := by
  intro h st hst
  cases hst

theorem statesBounds_stepTick (c : String) (o : Oracle) (anchor : ℤ) (i : ℕ)
    (s : HostStates) (hv : ValidOracle o) (hs : StatesBounds s) :
    StatesBounds (stepTick c o anchor i s).1 := by
  intro h st hst
  simp only [stepTick] at hst
  by_cases hh : h = rchoice vm_hosts "vm-web-01" (o.hostIdx i)
  · rw [if_pos hh, Option.some.injEq] at hst
    rw [← hst]
    exact hostBounds_tickState _ o _ _ _ (hostBounds_getD o hv s hs _)
  · rw [if_neg hh] at hst
    exact hs h st hst

theorem vmCpu_bounds (o : Oracle) (i : ℕ) (st : HostState) (hv : ValidOracle o)
    (hb : HostBounds st) : 0 ≤ vmCpu o i st ∧ vmCpu o i st ≤ 100 := by
  obtain ⟨h1, h2, h3, h4⟩ := hb
  unfold vmCpu
  split_ifs
  · have hlo := hv.cpuHi_lb i
    exact ⟨le_min (by norm_num) (by linarith),
      le_trans (min_le_left _ _) (by norm_num)⟩
  · have hlo := hv.cpuLo_lb i
    have hup := hv.cpuLo_ub i
    constructor <;> linarith

theorem vmMem_bounds (o : Oracle) (i : ℕ) (st : HostState) (hv : ValidOracle o)
    (hb : HostBounds st) : 0 ≤ vmMem o i st ∧ vmMem o i st ≤ 100 := by
  obtain ⟨h1, h2, h3, h4⟩ := hb
  unfold vmMem
  split_ifs
  · have hlo := hv.memHi_lb i
    exact ⟨le_min (by norm_num) (by linarith),
      le_trans (min_le_left _ _) (by norm_num)⟩
  · have hlo := hv.memLo_lb i
    have hup := hv.memLo_ub i
    constructor <;> linarith

theorem mkVm_row_facts (o : Oracle) (i : ℕ) (t : ℤ) (h : String) (st : HostState)
    (hv : ValidOracle o) (hb : HostBounds st) :
    (mkVm o i t h st).load_average_1min =
        round2 ((mkVm o i t h st).cpu_usage_percent / 25) ∧
    |(mkVm o i t h st).load_average_5min -
        round2 ((mkVm o i t h st).cpu_usage_percent / 30)| ≤ 1/100 ∧
    (mkVm o i t h st).memory_usage_percent +
        (mkVm o i t h st).available_memory_percentage = 100 := by
  obtain ⟨hc0, hc1⟩ := vmCpu_bounds o i st hv hb
  obtain ⟨hm0, hm1⟩ := vmMem_bounds o i st hv hb
  simp only [mkVm]
  rw [clamp_eq _ hc0 hc1, clamp_eq _ hm0 hm1]
  refine ⟨?_, ?_, ?_⟩
  · rw [round2_div25]
  · exact round2_div30_dist _
  · rw [round2_sub100]
    ring

theorem runAux_metrics_facts (c : String) (o : Oracle) (anchor : ℤ)
    (hv : ValidOracle o) :
    ∀ k i s, StatesBounds s → ∀ r ∈ (runAux c o anchor k i s).1,
      r.load_average_1min = round2 (r.cpu_usage_percent / 25) ∧
      |r.load_average_5min - round2 (r.cpu_usage_percent / 30)| ≤ 1/100 ∧
      r.memory_usage_percent + r.available_memory_percentage = 100 := by
  intro k
  induction k with
  | zero =>
    intro i s _ r hr
    simp [runAux] at hr
  | succ k ih =>
    intro i s hs r hr
    simp only [runAux, List.mem_cons] at hr
    rcases hr with hr | hr
    · have hstep : (stepTick c o anchor i s).2.1 =
          mkVm o i (anchor + 300 * (i : ℤ)) (rchoice vm_hosts "vm-web-01" (o.hostIdx i))
            (tickState c o i (anchor + 300 * (i : ℤ))
              ((s (rchoice vm_hosts "vm-web-01" (o.hostIdx i))).getD
                (initHostState o (rchoice vm_hosts "vm-web-01" (o.hostIdx i))))) := by
        simp [stepTick]
      rw [hr, hstep]
      exact mkVm_row_facts o i _ _ _ hv
        (hostBounds_tickState c o i _ _ (hostBounds_getD o hv s hs _))
    · exact ih (i + 1) _ (statesBounds_stepTick c o anchor i s hv hs) r hr

/-- C2 (amended): for every metrics row, `load_average_1min` equals
`round(cpu_usage_percent / 25, 2)` (rounding commutes with dividing by 25);
`load_average_5min` is `round(p/30, 2)` of the pre-rounding cpu percent `p`
and can deviate from `round(cpu_usage_percent / 30, 2)` by up to 0.01. -/
theorem generate_correlated_vm_data_load_average (num_records : ℕ)
    (correlation_type : String) (anchor : ℤ) (o : Oracle) (hv : ValidOracle o) :
    ∀ r ∈ (generate_correlated_vm_data num_records correlation_type anchor o).1,
      r.load_average_1min = round2 (r.cpu_usage_percent / 25) ∧
      |r.load_average_5min - round2 (r.cpu_usage_percent / 30)| ≤ 1/100 := by
  intro r hr
  have hfacts := runAux_metrics_facts correlation_type o anchor hv num_records 0 _
    statesBounds_empty r hr
  exact ⟨hfacts.1, hfacts.2.1⟩

/-- C9: in every metrics row the two memory fields are complementary:
`memory_usage_percent + available_memory_percentage = 100` exactly (both are
half-to-even roundings of the same in-range pre-clamp memory percent). -/
theorem generate_correlated_vm_data_memory_complement (num_records : ℕ)
    (correlation_type : String) (anchor : ℤ) (o : Oracle) (hv : ValidOracle o) :
    ∀ r ∈ (generate_correlated_vm_data num_records correlation_type anchor o).1,
      r.memory_usage_percent + r.available_memory_percentage = 100 := by
  intro r hr
  exact (runAux_metrics_facts correlation_type o anchor hv num_records 0 _
    statesBounds_empty r hr).2.2

/-! ## Per-row facts of the log table -/

theorem rchoice_mem {α : Type} (l : List α) (d : α) (k : ℕ) (hl : l ≠ []) :
    rchoice l d k ∈ l := by
  unfold rchoice
  have hpos : 0 < l.length := List.length_pos.mpr hl
  have hk : k % l.length < l.length := Nat.mod_lt _ hpos
  rw [List.getD_eq_getElem l d hk]
  exact List.getElem_mem hk

theorem err_level_not_info (s : String) (hs : s ∈ ["ERROR", "WARN", "CRIT"]) :
    ¬(s = "INFO" ∨ s = "DEBUG") := by
  simp only [List.mem_cons, List.not_mem_nil, or_false] at hs
  rcases hs with rfl | rfl | rfl <;> decide

theorem mkLog_facts (o : Oracle) (hv : ValidOracle o) (i j : ℕ) (t : ℤ) (h : String)
    (svcs : List String) (el : Bool) :
    ((mkLog o i j t h svcs el).error_code = none ↔
      ((mkLog o i j t h svcs el).log_level = "INFO" ∨
        (mkLog o i j t h svcs el).log_level = "DEBUG")) ∧
    (∀ e, (mkLog o i j t h svcs el).error_code = some e →
      (400 ≤ e ∧ e ≤ 599) ∧
      ((mkLog o i j t h svcs el).log_level = "ERROR" ∨
        (mkLog o i j t h svcs el).log_level = "WARN" ∨
        (mkLog o i j t h svcs el).log_level = "CRIT") ∧
      (mkLog o i j t h svcs el).bytes_transferred ≤ 1000) ∧
    ((mkLog o i j t h svcs el).error_code = none →
      1000 ≤ (mkLog o i j t h svcs el).bytes_transferred ∧
      (mkLog o i j t h svcs el).bytes_transferred ≤ 100000) := by
  by_cases he : (el && decide (o.errRoll i j < 2/5)) = true
  · have hmem := rchoice_mem ["ERROR", "WARN", "CRIT"] "ERROR" (o.levelIdx i j)
      (by simp)
    simp only [mkLog, he, if_true]
    refine ⟨?_, ?_, ?_⟩
    · constructor
      · intro hc
        simp at hc
      · intro hor
        exact absurd hor (err_level_not_info _ hmem)
    · intro e hee
      rw [Option.some.injEq] at hee
      subst hee
      refine ⟨⟨hv.errCode_lb i j, hv.errCode_ub i j⟩, ?_, hv.bytesErr_ub i j⟩
      simpa using hmem
    · intro hc
      simp at hc
  · have hmem := rchoice_mem ["INFO", "DEBUG"] "INFO" (o.levelIdx i j) (by simp)
    simp only [mkLog, he, if_false, Bool.false_eq_true]
    refine ⟨?_, ?_, ?_⟩
    · simpa using hmem
    · intro e hee
      simp at hee
    · intro _
      exact ⟨hv.bytesNorm_lb i j, hv.bytesNorm_ub i j⟩

theorem stepTick_logs_shape (c : String) (o : Oracle) (anchor : ℤ) (i : ℕ)
    (s : HostStates) :
    (stepTick c o anchor i s).2.2 = (List.range (o.logCount i)).map fun j =>
      mkLog o i j (anchor + 300 * (i : ℤ)) (rchoice vm_hosts "vm-web-01" (o.hostIdx i))
        ((services_by_host.lookup (rchoice vm_hosts "vm-web-01" (o.hostIdx i))).getD
          ["unknown-service"])
        (tickState c o i (anchor + 300 * (i : ℤ))
          ((s (rchoice vm_hosts "vm-web-01" (o.hostIdx i))).getD
            (initHostState o (rchoice vm_hosts "vm-web-01" (o.hostIdx i))))).incident_mode := by
  simp [stepTick]

theorem runAux_logs_facts (c : String) (o : Oracle) (anchor : ℤ)
    (hv : ValidOracle o) :
    ∀ k i s, ∀ l ∈ (runAux c o anchor k i s).2,
      (l.error_code = none ↔ (l.log_level = "INFO" ∨ l.log_level = "DEBUG")) ∧
      (∀ e, l.error_code = some e →
        (400 ≤ e ∧ e ≤ 599) ∧
        (l.log_level = "ERROR" ∨ l.log_level = "WARN" ∨ l.log_level = "CRIT") ∧
        l.bytes_transferred ≤ 1000) ∧
      (l.error_code = none →
        1000 ≤ l.bytes_transferred ∧ l.bytes_transferred ≤ 100000) := by
  intro k
  induction k with
  | zero =>
    intro i s l hl
    simp [runAux] at hl
  | succ k ih =>
    intro i s l hl
    simp only [runAux, List.mem_append] at hl
    rcases hl with hl | hl
    · rw [stepTick_logs_shape] at hl
      obtain ⟨j, _, rfl⟩ := List.mem_map.mp hl
      exact mkLog_facts o hv i j _ _ _ _
    · exact ih (i + 1) _ l hl

/-- C10: a log row carries an error code iff its level is not INFO/DEBUG;
error rows have a code in [400,599], a level in {ERROR, WARN, CRIT} and at
most 1000 transferred bytes, while normal rows transfer 1000–100000 bytes. -/
theorem generate_correlated_vm_data_log_error_fields (num_records : ℕ)
    (correlation_type : String) (anchor : ℤ) (o : Oracle) (hv : ValidOracle o) :
    ∀ l ∈ (generate_correlated_vm_data num_records correlation_type anchor o).2,
      (l.error_code = none ↔ (l.log_level = "INFO" ∨ l.log_level = "DEBUG")) ∧
      (∀ e, l.error_code = some e →
        (400 ≤ e ∧ e ≤ 599) ∧
        (l.log_level = "ERROR" ∨ l.log_level = "WARN" ∨ l.log_level = "CRIT") ∧
        l.bytes_transferred ≤ 1000) ∧
      (l.error_code = none →
        1000 ≤ l.bytes_transferred ∧ l.bytes_transferred ≤ 100000) :=
  fun l hl => runAux_logs_facts correlation_type o anchor hv num_records 0 _ l hl

/-! ## Tick-wise correlation of the two tables -/

theorem runAux_eq_runTicks (c : String) (o : Oracle) (anchor : ℤ) :
    ∀ k i s,
      (runAux c o anchor k i s).1 = (runTicks c o anchor k i s).map Prod.fst ∧
      (runAux c o anchor k i s).2 =
        ((runTicks c o anchor k i s).map Prod.snd).flatten := by
  intro k
  induction k with
  | zero => intro i s; exact ⟨rfl, rfl⟩
  | succ k ih =>
    intro i s
    obtain ⟨ih1, ih2⟩ := ih (i + 1) (stepTick c o anchor i s).1
    constructor
    · simp only [runAux, runTicks, List.map_cons, ih1]
    · simp only [runAux, runTicks, List.map_cons, List.flatten_cons, ih2]

theorem stepTick_vm_shape (c : String) (o : Oracle) (anchor : ℤ) (i : ℕ)
    (s : HostStates) :
    (stepTick c o anchor i s).2.1 =
      mkVm o i (anchor + 300 * (i : ℤ)) (rchoice vm_hosts "vm-web-01" (o.hostIdx i))
        (tickState c o i (anchor + 300 * (i : ℤ))
          ((s (rchoice vm_hosts "vm-web-01" (o.hostIdx i))).getD
            (initHostState o (rchoice vm_hosts "vm-web-01" (o.hostIdx i))))) := by
  simp [stepTick]

theorem runTicks_log_window (c : String) (o : Oracle) (anchor : ℤ)
    (hv : ValidOracle o) :
    ∀ k i s, ∀ p ∈ runTicks c o anchor k i s, ∀ l ∈ p.2,
      l.hostname = p.1.hostname ∧ p.1.timestamp ≤ l.timestamp ∧
      l.timestamp < p.1.timestamp + 300 := by
  intro k
  induction k with
  | zero =>
    intro i s p hp
    simp [runTicks] at hp
  | succ k ih =>
    intro i s p hp
    simp only [runTicks, List.mem_cons] at hp
    rcases hp with hp | hp
    · intro l hl
      rw [hp] at hl ⊢
      simp only at hl ⊢
      rw [stepTick_logs_shape] at hl
      obtain ⟨j, _, rfl⟩ := List.mem_map.mp hl
      rw [stepTick_vm_shape]
      have hoff : (o.tsOff i j : ℤ) ≤ 299 := by exact_mod_cast hv.tsOff_ub i j
      have hoff0 : (0 : ℤ) ≤ (o.tsOff i j : ℤ) := by positivity
      refine ⟨rfl, ?_, ?_⟩
      · simp only [mkLog, mkVm]
        omega
      · simp only [mkLog, mkVm]
        omega
    · exact ih (i + 1) _ p hp

/-- C6: the flat log table is the tick-by-tick concatenation of per-tick log
batches, and every log row of a tick shares the tick's hostname and has its
timestamp inside the tick's 300-second window. -/
theorem generate_correlated_vm_data_log_window (num_records : ℕ)
    (correlation_type : String) (anchor : ℤ) (o : Oracle) (hv : ValidOracle o) :
    (generate_correlated_vm_data num_records correlation_type anchor o).1 =
      (generateTicks num_records correlation_type anchor o).map Prod.fst ∧
    (generate_correlated_vm_data num_records correlation_type anchor o).2 =
      ((generateTicks num_records correlation_type anchor o).map Prod.snd).flatten ∧
    ∀ p ∈ generateTicks num_records correlation_type anchor o, ∀ l ∈ p.2,
      l.hostname = p.1.hostname ∧ p.1.timestamp ≤ l.timestamp ∧
      l.timestamp < p.1.timestamp + 300 := by
  obtain ⟨h1, h2⟩ := runAux_eq_runTicks correlation_type o anchor num_records 0
    fun _ => none
  exact ⟨h1, h2, runTicks_log_window correlation_type o anchor hv num_records 0 _⟩

/-! ## The incident state machine -/

/-- C5: under `normal_operations` the state machine never leaves Normal —
no host state ever has `incident_mode` set, at any tick of any run. -/
theorem generate_correlated_vm_data_normal_no_incident (o : Oracle) (anchor : ℤ) :
    ∀ k h st, statesAfter "normal_operations" o anchor k h = some st →
      st.incident_mode = false := by
  intro k
  induction k with
  | zero =>
    intro h st hst
    cases hst
  | succ k ih =>
    intro h st hst
    simp only [statesAfter, stepTick] at hst
    by_cases hh : h = rchoice vm_hosts "vm-web-01" (o.hostIdx k)
    · rw [if_pos hh, Option.some.injEq] at hst
      rw [← hst, tickState_nonperf _ (by decide)]
      cases hsh : statesAfter "normal_operations" o anchor k
          (rchoice vm_hosts "vm-web-01" (o.hostIdx k)) with
      | none => simp [Option.getD, initHostState]
      | some stp => simpa [Option.getD] using ih _ stp hsh
    · rw [if_neg hh] at hst
      exact ih h st hst

theorem duration_le_elapsed_iff (t x : ℤ) (d : ℕ) :
    ((d : ℚ) ≤ ((t - x : ℤ) : ℚ) / 300) ↔ x + 300 * (d : ℤ) ≤ t := by
  rw [le_div_iff₀ (by norm_num : (0 : ℚ) < 300)]
  constructor
  · intro hq
    have h2 : ((x + 300 * (d : ℤ) : ℤ) : ℚ) ≤ ((t : ℤ) : ℚ) := by
      push_cast at hq ⊢
      linarith
    exact_mod_cast h2
  · intro hz
    have h2 : ((x + 300 * (d : ℤ) : ℤ) : ℚ) ≤ ((t : ℤ) : ℚ) := by exact_mod_cast hz
    push_cast at h2 ⊢
    linarith

theorem tickState_perf (o : Oracle) (i : ℕ) (t : ℤ) (st : HostState) :
    tickState "performance_issues" o i t st =
      tickStateEnd t (tickStateStart o i t st) := by
  unfold tickState
  have hscen : ("performance_issues" : String) = "performance_issues" := rfl
  rw [if_pos hscen]

theorem tickStateStart_pos (o : Oracle) (i : ℕ) (t : ℤ) (st : HostState)
    (h : st.incident_mode = false ∧ o.roll i < 1/10) :
    tickStateStart o i t st =
      { st with incident_mode := true, incident_start := some t,
                incident_duration := o.dur i } := by
  unfold tickStateStart
  rw [if_pos h]

theorem tickStateStart_neg (o : Oracle) (i : ℕ) (t : ℤ) (st : HostState)
    (h : ¬(st.incident_mode = false ∧ o.roll i < 1/10)) :
    tickStateStart o i t st = st := by
  unfold tickStateStart
  rw [if_neg h]

theorem tickStateEnd_none (t : ℤ) (st1 : HostState)
    (h : st1.incident_mode = false) : tickStateEnd t st1 = st1 := by
  simp [tickStateEnd, h]

theorem tickStateEnd_stop (t : ℤ) (st1 : HostState) (x : ℤ)
    (hm : st1.incident_mode = true) (hx : st1.incident_start = some x)
    (hend : x + 300 * (st1.incident_duration : ℤ) ≤ t) :
    tickStateEnd t st1 = { st1 with incident_mode := false } := by
  have hq : (st1.incident_duration : ℚ) ≤ ((t - x : ℤ) : ℚ) / 300 :=
    (duration_le_elapsed_iff t x st1.incident_duration).mpr hend
  push_cast at hq
  simp [tickStateEnd, hm, hx, hq]

theorem tickStateEnd_go (t : ℤ) (st1 : HostState) (x : ℤ)
    (hm : st1.incident_mode = true) (hx : st1.incident_start = some x)
    (hlt : t < x + 300 * (st1.incident_duration : ℤ)) :
    tickStateEnd t st1 = st1 := by
  have hne : ¬((st1.incident_duration : ℚ) ≤ ((t - x : ℤ) : ℚ) / 300) := by
    rw [duration_le_elapsed_iff]
    omega
  push_cast at hne
  simp [tickStateEnd, hm, hx, hne]

/-- Updating the selected host's state at its tick re-establishes the
spec's window invariant for that host, and keeps the bookkeeping clauses. -/
theorem tickState_perf_window (o : Oracle) (hv : ValidOracle o) (i : ℕ) (t : ℤ)
    (st : HostState)
    (h1 : st.incident_mode = true → ∃ x, st.incident_start = some x ∧ x ≤ t)
    (h2 : st.incident_mode = false → st.incident_start = none ∨
      ∃ x, st.incident_start = some x ∧ x + 300 * (st.incident_duration : ℤ) ≤ t) :
    ((tickState "performance_issues" o i t st).incident_mode =
        inWindowB (tickState "performance_issues" o i t st) t) ∧
    ((tickState "performance_issues" o i t st).incident_mode = true →
      ∃ x, (tickState "performance_issues" o i t st).incident_start = some x ∧ x ≤ t) ∧
    ((tickState "performance_issues" o i t st).incident_mode = false →
      (tickState "performance_issues" o i t st).incident_start = none ∨
      ∃ x, (tickState "performance_issues" o i t st).incident_start = some x ∧
        x + 300 * ((tickState "performance_issues" o i t st).incident_duration : ℤ) ≤ t) := by
  rw [tickState_perf]
  cases hmode : st.incident_mode with
  | true =>
    obtain ⟨x, hx, hxt⟩ := h1 hmode
    rw [tickStateStart_neg o i t st (by rw [hmode]; simp)]
    by_cases hend : x + 300 * (st.incident_duration : ℤ) ≤ t
    · rw [tickStateEnd_stop t st x hmode hx hend]
      have hnlt : ¬(t < x + 300 * (st.incident_duration : ℤ)) := by omega
      refine ⟨?_, ?_, ?_⟩
      · simp [inWindowB, hx, hnlt]
      · intro hm
        simp at hm
      · intro _
        refine Or.inr ⟨x, ?_, ?_⟩
        · simp [hx]
        · simpa using hend
    · push_neg at hend
      rw [tickStateEnd_go t st x hmode hx hend]
      refine ⟨?_, ?_, ?_⟩
      · simp [inWindowB, hx, hxt, hend, hmode]
      · intro _
        exact ⟨x, hx, hxt⟩
      · intro hm
        rw [hmode] at hm
        cases hm
  | false =>
    by_cases hroll : o.roll i < 1/10
    · rw [tickStateStart_pos o i t st ⟨hmode, hroll⟩]
      have hd := hv.dur_lb i
      have hlt : t < t + 300 * (o.dur i : ℤ) := by omega
      rw [tickStateEnd_go t _ t rfl rfl hlt]
      refine ⟨?_, ?_, ?_⟩
      · simp [inWindowB, hlt]
      · intro _
        exact ⟨t, rfl, le_refl t⟩
      · intro hm
        simp at hm
    · rw [tickStateStart_neg o i t st fun hc => hroll hc.2]
      rcases h2 hmode with hnone | ⟨x, hx, hend⟩
      · rw [tickStateEnd_none t st hmode]
        refine ⟨?_, ?_, ?_⟩
        · simp [inWindowB, hnone, hmode]
        · intro hm
          rw [hmode] at hm
          cases hm
        · intro _
          exact Or.inl hnone
      · rw [tickStateEnd_none t st hmode]
        have hnlt : ¬(t < x + 300 * (st.incident_duration : ℤ)) := by omega
        refine ⟨?_, ?_, ?_⟩
        · simp [inWindowB, hx, hnlt, hmode]
        · intro hm
          rw [hmode] at hm
          cases hm
        · intro _
          exact Or.inr ⟨x, hx, hend⟩

theorem incInv_mono (s : HostStates) (t t' : ℤ) (h : t ≤ t') (hi : IncInv s t) :
    IncInv s t' := by
  intro h0 st hst
  obtain ⟨c1, c2⟩ := hi h0 st hst
  constructor
  · intro hm
    obtain ⟨x, hx, hxt⟩ := c1 hm
    exact ⟨x, hx, le_trans hxt h⟩
  · intro hm
    rcases c2 hm with hn | ⟨x, hx, he⟩
    · exact Or.inl hn
    · exact Or.inr ⟨x, hx, le_trans he h⟩

theorem incInv_statesAfter (o : Oracle) (anchor : ℤ) (hv : ValidOracle o) :
    ∀ k, IncInv (statesAfter "performance_issues" o anchor k)
      (anchor + 300 * (k : ℤ)) := by
  intro k
  induction k with
  | zero =>
    intro h st hst
    cases hst
  | succ k ih =>
    have hT : IncInv (statesAfter "performance_issues" o anchor (k + 1))
        (anchor + 300 * (k : ℤ)) := by
      intro h st hst
      simp only [statesAfter, stepTick] at hst
      by_cases hh : h = rchoice vm_hosts "vm-web-01" (o.hostIdx k)
      · rw [if_pos hh, Option.some.injEq] at hst
        have hcl : (((statesAfter "performance_issues" o anchor k
              (rchoice vm_hosts "vm-web-01" (o.hostIdx k))).getD
              (initHostState o (rchoice vm_hosts "vm-web-01" (o.hostIdx k)))).incident_mode = true →
            ∃ x, ((statesAfter "performance_issues" o anchor k
              (rchoice vm_hosts "vm-web-01" (o.hostIdx k))).getD
              (initHostState o (rchoice vm_hosts "vm-web-01" (o.hostIdx k)))).incident_start
                = some x ∧ x ≤ anchor + 300 * (k : ℤ)) ∧
            (((statesAfter "performance_issues" o anchor k
              (rchoice vm_hosts "vm-web-01" (o.hostIdx k))).getD
              (initHostState o (rchoice vm_hosts "vm-web-01" (o.hostIdx k)))).incident_mode = false →
            ((statesAfter "performance_issues" o anchor k
              (rchoice vm_hosts "vm-web-01" (o.hostIdx k))).getD
              (initHostState o (rchoice vm_hosts "vm-web-01" (o.hostIdx k)))).incident_start = none ∨
            ∃ x, ((statesAfter "performance_issues" o anchor k
              (rchoice vm_hosts "vm-web-01" (o.hostIdx k))).getD
              (initHostState o (rchoice vm_hosts "vm-web-01" (o.hostIdx k)))).incident_start
                = some x ∧
              x + 300 * (((statesAfter "performance_issues" o anchor k
                (rchoice vm_hosts "vm-web-01" (o.hostIdx k))).getD
                (initHostState o (rchoice vm_hosts "vm-web-01" (o.hostIdx k)))).incident_duration : ℤ)
                ≤ anchor + 300 * (k : ℤ)) := by
          cases hsh : statesAfter "performance_issues" o anchor k
              (rchoice vm_hosts "vm-web-01" (o.hostIdx k)) with
          | none =>
            refine ⟨?_, ?_⟩
            · intro hm
              simp [Option.getD, initHostState] at hm
            · intro _
              simp [Option.getD, initHostState]
          | some stp =>
            simpa [Option.getD] using ih _ stp hsh
        have hwin := tickState_perf_window o hv k (anchor + 300 * (k : ℤ)) _ hcl.1 hcl.2
        rw [← hst]
        exact ⟨hwin.2.1, hwin.2.2⟩
      · rw [if_neg hh] at hst
        exact ih h st hst
    refine incInv_mono _ _ _ ?_ hT
    push_cast
    omega

/-- C1 (amended): under `performance_issues`, the spec's window invariant
holds for the host selected at each tick, immediately after its state update:
its `incident_mode` flag is set iff the tick's timestamp lies in
`[incident_start, incident_start + 300*incident_duration)`.  (States of hosts
not selected at a tick can go stale — see the counterexample.) -/
theorem generate_correlated_vm_data_incident_flag_selected (o : Oracle)
    (anchor : ℤ) (hv : ValidOracle o) (i : ℕ) (st : HostState)
    (hst : statesAfter "performance_issues" o anchor (i + 1)
      (rchoice vm_hosts "vm-web-01" (o.hostIdx i)) = some st) :
    st.incident_mode = inWindowB st (anchor + 300 * (i : ℤ)) := by
  have hsel : statesAfter "performance_issues" o anchor (i + 1)
      (rchoice vm_hosts "vm-web-01" (o.hostIdx i)) =
      some (tickState "performance_issues" o i (anchor + 300 * (i : ℤ))
        ((statesAfter "performance_issues" o anchor i
          (rchoice vm_hosts "vm-web-01" (o.hostIdx i))).getD
          (initHostState o (rchoice vm_hosts "vm-web-01" (o.hostIdx i))))) := by
    simp [statesAfter, stepTick]
  rw [hsel, Option.some.injEq] at hst
  have hcl := incInv_statesAfter o anchor hv i
  have hcl2 : (((statesAfter "performance_issues" o anchor i
        (rchoice vm_hosts "vm-web-01" (o.hostIdx i))).getD
        (initHostState o (rchoice vm_hosts "vm-web-01" (o.hostIdx i)))).incident_mode = true →
      ∃ x, ((statesAfter "performance_issues" o anchor i
        (rchoice vm_hosts "vm-web-01" (o.hostIdx i))).getD
        (initHostState o (rchoice vm_hosts "vm-web-01" (o.hostIdx i)))).incident_start
          = some x ∧ x ≤ anchor + 300 * (i : ℤ)) ∧
      (((statesAfter "performance_issues" o anchor i
        (rchoice vm_hosts "vm-web-01" (o.hostIdx i))).getD
        (initHostState o (rchoice vm_hosts "vm-web-01" (o.hostIdx i)))).incident_mode = false →
      ((statesAfter "performance_issues" o anchor i
        (rchoice vm_hosts "vm-web-01" (o.hostIdx i))).getD
        (initHostState o (rchoice vm_hosts "vm-web-01" (o.hostIdx i)))).incident_start = none ∨
      ∃ x, ((statesAfter "performance_issues" o anchor i
        (rchoice vm_hosts "vm-web-01" (o.hostIdx i))).getD
        (initHostState o (rchoice vm_hosts "vm-web-01" (o.hostIdx i)))).incident_start
          = some x ∧
        x + 300 * (((statesAfter "performance_issues" o anchor i
          (rchoice vm_hosts "vm-web-01" (o.hostIdx i))).getD
          (initHostState o (rchoice vm_hosts "vm-web-01" (o.hostIdx i)))).incident_duration : ℤ)
          ≤ anchor + 300 * (i : ℤ)) := by
    cases hsh : statesAfter "performance_issues" o anchor i
        (rchoice vm_hosts "vm-web-01" (o.hostIdx i)) with
    | none =>
      refine ⟨?_, ?_⟩
      · intro hm
        simp [Option.getD, initHostState] at hm
      · intro _
        simp [Option.getD, initHostState]
    | some stp =>
      simpa [Option.getD] using hcl _ stp hsh
  have hwin := tickState_perf_window o hv i (anchor + 300 * (i : ℤ)) _ hcl2.1 hcl2.2
  rw [← hst]
  exact hwin.1

/-! ## Concrete runs: witnesses and counterexamples -/

theorem validOracle_oW : ValidOracle oW := by
  constructor <;> intros <;> norm_num [oW]

theorem validOracle_oC1 : ValidOracle oC1 := by
  constructor <;> intros <;> norm_num [oC1, oW]

theorem validOracle_oC2 : ValidOracle oC2 := by
  constructor <;> intros <;> norm_num [oC2, oW]

theorem statesAfter_oW_normal : statesAfter "normal_operations" oW 0 1 "vm-web-01"
    = some stW := rfl

/-- C5 witness: a concrete 1-tick `normal_operations` run, with the stored
state of the selected host and its clear `incident_mode` flag. -/
theorem generate_correlated_vm_data_normal_no_incident_witness :
    statesAfter "normal_operations" oW 0 1 "vm-web-01" = some stW ∧
    stW.incident_mode = false :=
  ⟨statesAfter_oW_normal,
   generate_correlated_vm_data_normal_no_incident oW 0 1 "vm-web-01" stW
     statesAfter_oW_normal⟩

theorem statesAfter_oW_perf : statesAfter "performance_issues" oW 0 1
    (rchoice vm_hosts "vm-web-01" (oW.hostIdx 0)) = some stW := by
  norm_num [statesAfter, stepTick, tickState, tickStateStart, tickStateEnd,
    rchoice, vm_hosts, oW, initHostState, stW, Option.getD]

/-- C1 witness: in a concrete 1-tick `performance_issues` run with no
incident roll, the selected host's stored state satisfies the window
invariant at the tick's timestamp. -/
theorem generate_correlated_vm_data_incident_flag_selected_witness :
    ValidOracle oW ∧
    statesAfter "performance_issues" oW 0 1
      (rchoice vm_hosts "vm-web-01" (oW.hostIdx 0)) = some stW ∧
    stW.incident_mode = inWindowB stW (0 + 300 * ((0 : ℕ) : ℤ)) :=
  ⟨validOracle_oW, statesAfter_oW_perf,
   generate_correlated_vm_data_incident_flag_selected oW 0 validOracle_oW 0 stW
     statesAfter_oW_perf⟩

theorem stepTick_states_at (c : String) (o : Oracle) (anchor : ℤ) (i : ℕ)
    (s : HostStates) (h : String) :
    (stepTick c o anchor i s).1 h =
      if h = rchoice vm_hosts "vm-web-01" (o.hostIdx i) then
        some (tickState c o i (anchor + 300 * (i : ℤ))
          ((s (rchoice vm_hosts "vm-web-01" (o.hostIdx i))).getD
            (initHostState o (rchoice vm_hosts "vm-web-01" (o.hostIdx i)))))
      else s h := rfl

theorem statesAfter_oC1_one : statesAfter "performance_issues" oC1 0 1 "vm-web-01"
    = some stC1 := by
  norm_num [statesAfter, stepTick, tickState, tickStateStart, tickStateEnd,
    rchoice, vm_hosts, oC1, oW, initHostState, stC1, Option.getD]

theorem statesAfter_oC1_stale : statesAfter "performance_issues" oC1 0 4 "vm-web-01"
    = some stC1 := by
  have e3 : statesAfter "performance_issues" oC1 0 4 "vm-web-01" =
      statesAfter "performance_issues" oC1 0 3 "vm-web-01" := by
    show (stepTick "performance_issues" oC1 0 3
      (statesAfter "performance_issues" oC1 0 3)).1 "vm-web-01" = _
    rw [stepTick_states_at,
      show rchoice vm_hosts "vm-web-01" (oC1.hostIdx 3) = "vm-api-01" from rfl,
      if_neg (by decide : ¬("vm-web-01" = "vm-api-01"))]
  have e2 : statesAfter "performance_issues" oC1 0 3 "vm-web-01" =
      statesAfter "performance_issues" oC1 0 2 "vm-web-01" := by
    show (stepTick "performance_issues" oC1 0 2
      (statesAfter "performance_issues" oC1 0 2)).1 "vm-web-01" = _
    rw [stepTick_states_at,
      show rchoice vm_hosts "vm-web-01" (oC1.hostIdx 2) = "vm-api-01" from rfl,
      if_neg (by decide : ¬("vm-web-01" = "vm-api-01"))]
  have e1 : statesAfter "performance_issues" oC1 0 2 "vm-web-01" =
      statesAfter "performance_issues" oC1 0 1 "vm-web-01" := by
    show (stepTick "performance_issues" oC1 0 1
      (statesAfter "performance_issues" oC1 0 1)).1 "vm-web-01" = _
    rw [stepTick_states_at,
      show rchoice vm_hosts "vm-web-01" (oC1.hostIdx 1) = "vm-api-01" from rfl,
      if_neg (by decide : ¬("vm-web-01" = "vm-api-01"))]
  rw [e3, e2, e1, statesAfter_oC1_one]

/-- C1 counterexample: in a concrete 4-tick `performance_issues` run,
`vm-web-01` starts a 3-tick incident at tick 0 (timestamp 0) and is never
selected again; at tick 3 (timestamp 900, outside the window `[0, 900)`) its
state still has `incident_mode = true`, so the claimed invariant fails for a
host/tick pair of the run. -/
theorem generate_correlated_vm_data_incident_flag_cex :
    ValidOracle oC1 ∧
    statesAfter "performance_issues" oC1 0 4 "vm-web-01" = some stC1 ∧
    stC1.incident_mode = true ∧
    inWindowB stC1 900 = false ∧
    (3 : ℕ) < 4 :=
  ⟨validOracle_oC1, statesAfter_oC1_stale, rfl, by decide, by decide⟩

theorem genW_metrics : (generate_correlated_vm_data 1 "normal_operations" 0 oW).1
    = [vmW] := rfl

theorem genW_logs : (generate_correlated_vm_data 1 "normal_operations" 0 oW).2
    = [logW] := rfl

theorem vmW_mem : vmW ∈ (generate_correlated_vm_data 1 "normal_operations" 0 oW).1 := by
  rw [genW_metrics]
  exact List.mem_singleton_self _

theorem logW_mem : logW ∈ (generate_correlated_vm_data 1 "normal_operations" 0 oW).2 := by
  rw [genW_logs]
  exact List.mem_singleton_self _

/-- C2 witness: the single row of a concrete 1-tick run satisfies the
amended load-average laws. -/
theorem generate_correlated_vm_data_load_average_witness :
    ValidOracle oW ∧
    vmW ∈ (generate_correlated_vm_data 1 "normal_operations" 0 oW).1 ∧
    (vmW.load_average_1min = round2 (vmW.cpu_usage_percent / 25) ∧
     |vmW.load_average_5min - round2 (vmW.cpu_usage_percent / 30)| ≤ 1/100) :=
  ⟨validOracle_oW, vmW_mem,
   generate_correlated_vm_data_load_average 1 "normal_operations" 0 oW
     validOracle_oW vmW vmW_mem⟩

/-- C2 counterexample: with cpu percent 5.552, the emitted
`load_average_5min` is `round(5.552/30, 2) = 0.19`, while re-deriving it from
the rounded cpu field gives `round(5.55/30, 2) = round(0.185, 2) = 0.18`
(half-to-even) — so `load_average_5min = round(cpu_usage_percent/30, 2)`
fails on this row of the run. -/
theorem generate_correlated_vm_data_load_average_cex :
    ValidOracle oC2 ∧
    cexRowC2 ∈ (generate_correlated_vm_data 1 "normal_operations" 0 oC2).1 ∧
    cexRowC2.load_average_5min = 19/100 ∧
    round2 (cexRowC2.cpu_usage_percent / 30) = 9/50 ∧
    cexRowC2.load_average_5min ≠ round2 (cexRowC2.cpu_usage_percent / 30) := by
  have hgen : (generate_correlated_vm_data 1 "normal_operations" 0 oC2).1
      = [cexRowC2] := rfl
  have h5 : cexRowC2.load_average_5min = round2 ((1319/125 + -5 : ℚ) / 30) := rfl
  have hcpu : cexRowC2.cpu_usage_percent
      = round2 (max 0 (min 100 (1319/125 + -5 : ℚ))) := rfl
  have hv19 : round2 ((1319/125 + -5 : ℚ) / 30) = 19/100 := by
    unfold round2
    rw [rhe_eq_of 19 (100 * ((1319/125 + -5 : ℚ) / 30)) (by norm_num) (by norm_num)]
    norm_num
  have hcpuval : round2 (max 0 (min 100 (1319/125 + -5 : ℚ))) = 111/20 := by
    rw [clamp_eq _ (by norm_num) (by norm_num)]
    unfold round2
    rw [rhe_eq_of 555 (100 * (1319/125 + -5 : ℚ)) (by norm_num) (by norm_num)]
    norm_num
  have hre : round2 ((111/20 : ℚ) / 30) = 9/50 := by
    unfold round2
    rw [show (100 : ℚ) * ((111/20 : ℚ) / 30) = ((18 : ℤ) : ℚ) + 1/2 by
      push_cast
      norm_num]
    rw [rhe_half_even 18 ⟨9, by norm_num⟩]
    norm_num
  refine ⟨validOracle_oC2, ?_, ?_, ?_, ?_⟩
  · rw [hgen]
    exact List.mem_singleton_self _
  · rw [h5, hv19]
  · rw [hcpu, hcpuval, hre]
  · rw [h5, hv19, hcpu, hcpuval, hre]
    norm_num

/-- C3 witness: the amended no-validation behavior at the concrete scenario
string `bogus_scenario`. -/
theorem generate_correlated_vm_data_invalid_scenario_witness :
    "bogus_scenario" ∉ ["performance_issues", "normal_operations", "mixed_scenarios"] ∧
    (generate_correlated_vm_data 1 "bogus_scenario" 0 oW =
       generate_correlated_vm_data 1 "normal_operations" 0 oW ∧
     (generate_correlated_vm_data 1 "bogus_scenario" 0 oW).1.length = 1) :=
  ⟨by decide,
   generate_correlated_vm_data_invalid_scenario "bogus_scenario" (by decide) 1 0 oW⟩

/-- C3 counterexample: an unknown scenario string is not rejected — the run
completes and produces a full metrics table, contradicting the claimed
`InvalidScenario` failure with no partial output. -/
theorem generate_correlated_vm_data_invalid_scenario_cex :
    "bogus_scenario" ∉ ["performance_issues", "normal_operations", "mixed_scenarios"] ∧
    (generate_correlated_vm_data 1 "bogus_scenario" 0 oW).1.length = 1 :=
  ⟨by decide, rfl⟩

/-- C4 witness: the timestamp contract at the concrete interval count 1. -/
theorem generate_correlated_vm_data_timestamps_witness :
    1 ≤ 1 ∧
    ((generate_correlated_vm_data 1 "normal_operations" 0 oW).1.length = 1 ∧
     ((generate_correlated_vm_data 1 "normal_operations" 0 oW).1.map
        fun r => r.timestamp) =
       ((List.range 1).map fun i : ℕ => (0 : ℤ) + 300 * (i : ℤ)) ∧
     (((generate_correlated_vm_data 1 "normal_operations" 0 oW).1.map
        fun r => r.timestamp).Pairwise (· < ·))) :=
  ⟨le_refl 1,
   generate_correlated_vm_data_timestamps 1 "normal_operations" 0 oW (le_refl 1)⟩

/-- C6 witness: the single tick of a concrete run, with its log row inside
the tick's window and on the tick's host. -/
theorem generate_correlated_vm_data_log_window_witness :
    ValidOracle oW ∧
    tickW ∈ generateTicks 1 "normal_operations" 0 oW ∧
    logW ∈ tickW.2 ∧
    (logW.hostname = tickW.1.hostname ∧ tickW.1.timestamp ≤ logW.timestamp ∧
     logW.timestamp < tickW.1.timestamp + 300) := by
  have hticks : generateTicks 1 "normal_operations" 0 oW = [tickW] := rfl
  have hlogs : tickW.2 = [logW] := rfl
  have hmem1 : tickW ∈ generateTicks 1 "normal_operations" 0 oW := by
    rw [hticks]
    exact List.mem_singleton_self _
  have hmem2 : logW ∈ tickW.2 := by
    rw [hlogs]
    exact List.mem_singleton_self _
  exact ⟨validOracle_oW, hmem1, hmem2,
    (generate_correlated_vm_data_log_window 1 "normal_operations" 0 oW
      validOracle_oW).2.2 tickW hmem1 logW hmem2⟩

/-- C7 witness: the length contract at the concrete interval count 1. -/
theorem generate_correlated_vm_data_lengths_witness :
    ValidOracle oW ∧ 1 ≤ 1 ∧
    ((generate_correlated_vm_data 1 "normal_operations" 0 oW).1.length = 1 ∧
     (generate_correlated_vm_data 1 "normal_operations" 0 oW).2.length =
       ((List.range 1).map fun i => oW.logCount i).sum ∧
     1 ≤ (generate_correlated_vm_data 1 "normal_operations" 0 oW).2.length ∧
     (generate_correlated_vm_data 1 "normal_operations" 0 oW).2.length ≤ 5 * 1) :=
  ⟨validOracle_oW, le_refl 1,
   generate_correlated_vm_data_lengths 1 "normal_operations" 0 oW validOracle_oW
     (le_refl 1)⟩

/-- C9 witness: the complementary memory fields on the single row of a
concrete run. -/
theorem generate_correlated_vm_data_memory_complement_witness :
    ValidOracle oW ∧
    vmW ∈ (generate_correlated_vm_data 1 "normal_operations" 0 oW).1 ∧
    vmW.memory_usage_percent + vmW.available_memory_percentage = 100 :=
  ⟨validOracle_oW, vmW_mem,
   generate_correlated_vm_data_memory_complement 1 "normal_operations" 0 oW
     validOracle_oW vmW vmW_mem⟩

/-- C10 witness: the error-field invariants on the single log row of a
concrete run. -/
theorem generate_correlated_vm_data_log_error_fields_witness :
    ValidOracle oW ∧
    logW ∈ (generate_correlated_vm_data 1 "normal_operations" 0 oW).2 ∧
    (logW.error_code = none ↔ (logW.log_level = "INFO" ∨ logW.log_level = "DEBUG")) ∧
    (logW.error_code = none →
      1000 ≤ logW.bytes_transferred ∧ logW.bytes_transferred ≤ 100000) := by
  have hall := generate_correlated_vm_data_log_error_fields 1 "normal_operations" 0 oW
    validOracle_oW logW logW_mem
  exact ⟨validOracle_oW, logW_mem, hall.1, hall.2.2⟩
